import Mathlib

/-!
# File Renaming Utility (`rename_files.c`): embedding and verification

The utility walks a directory tree, reads every `.txt` file, extracts the
first `RJ-YYYY-NNNNN` identifier of its content and renames the file to
`<identifier>.txt`, adding `_1`, `_2`, ... when the name is taken.

Conventions of the embedding.

* A `char` is a natural number (its byte value).  Every comparison of the
  source is against ASCII constants below 128, so the signedness of `char`
  does not matter.
* A buffer is the list of the bytes stored in it, without the terminating
  zero byte that the source always writes after them: reading a cell past
  the end of the list yields `0`.
* File content is arbitrary bytes, so the functions of the pattern module
  look for the first zero byte themselves (`strlen`, `strstr`, `c_str`).
* Paths and file names come from the command line and from the directory
  enumeration as C strings; they are the list of their bytes and their length
  is the length of the list.
* The counters of `Statistics` are C `int`s; they are integers here (an
  increment at `INT_MAX` is undefined in C and is not modelled).
* Console output is not modelled.
-/

namespace RenameFiles

/-! ## Constants -/

/-- The macro `MAX_PATH_LENGTH`. -/
def MAX_PATH_LENGTH : Nat := 260

/-- The macro `RJ_PATTERN_LENGTH`: 13 characters and the terminator. -/
def RJ_PATTERN_LENGTH : Nat := 14

/-- The bytes of an ASCII string literal. -/
def ascii (s : String) : List Nat := s.toList.map Char.toNat

/-! ## C library functions used by the pattern module -/

/-- The C string stored at the start of a buffer: the bytes before the first
zero byte. -/
def c_str : List Nat → List Nat
  | [] => []
  | c :: cs => if c = 0 then [] else c :: c_str cs

/-- The function `strlen`: the number of bytes before the first zero byte. -/
def strlen : List Nat → Nat
  | [] => 0
  | c :: cs => if c = 0 then 0 else strlen cs + 1

/-- The function `strstr` for a needle without zero byte: the pointer (the
rest of the buffer) at the first occurrence of the needle in the C string at
`hay`, `none` for `NULL`. -/
def strstr : List Nat → List Nat → Option (List Nat)
  | [], needle => if needle.isPrefixOf [] then some [] else none
  | c :: cs, needle =>
    if needle.isPrefixOf (c :: cs) then some (c :: cs)
    else if c = 0 then none
    else strstr cs needle

/-- The function `strncpy(dest, src, n)` followed by the write of a zero byte
at `dest[n]`: the C string left in `dest`. -/
def strncpy (src : List Nat) (n : Nat) : List Nat := (c_str src).take n

/-! ## Pattern matching module -/

/-- The function `validate_rj_pattern` (source lines 43-84). -/
def validate_rj_pattern (pattern : List Nat) : Bool :=
  let PATTERN_LEN := RJ_PATTERN_LENGTH - 1
  let p := fun (i : Nat) => pattern.getD i 0
  if strlen pattern < PATTERN_LEN then false
  else if p 0 ≠ 'R'.toNat ∨ p 1 ≠ 'J'.toNat ∨ p 2 ≠ '-'.toNat then false
  else if (List.range' 3 4).any (fun i => decide (p i < '0'.toNat ∨ p i > '9'.toNat)) then false
  else if p 7 ≠ '-'.toNat then false
  else if (List.range' 8 5).any (fun i => decide (p i < '0'.toNat ∨ p i > '9'.toNat)) then false
  else if p 13 ≠ 0 ∧
      (('0'.toNat ≤ p 13 ∧ p 13 ≤ '9'.toNat) ∨
       ('A'.toNat ≤ p 13 ∧ p 13 ≤ 'Z'.toNat) ∨
       ('a'.toNat ≤ p 13 ∧ p 13 ≤ 'z'.toNat)) then false
  else true

/-- The `while` loop of `extract_rj_pattern` (source lines 102-120), started
with the pointer `ptr`; `fuel` bounds the number of iterations. -/
def extract_loop (output_size : Nat) : Nat → List Nat → Option (List Nat)
  | 0, _ => none
  | fuel + 1, ptr =>
    match strstr ptr (ascii "RJ-") with
    | none => none
    | some ptr =>
      let PATTERN_LEN := RJ_PATTERN_LENGTH - 1
      if strlen ptr ≥ PATTERN_LEN then
        let candidate := strncpy ptr PATTERN_LEN
        if validate_rj_pattern candidate then
          some (strncpy candidate (output_size - 1))
        else extract_loop output_size fuel (ptr.drop 1)
      else extract_loop output_size fuel (ptr.drop 1)

/-- The function `extract_rj_pattern` (source lines 93-124): `some output`
for the return value 0, `none` for -1.  Every iteration of the loop moves the
pointer forward, so `content.length + 1` iterations are never exceeded. -/
def extract_rj_pattern (content : List Nat) (output_size : Nat) : Option (List Nat) :=
  if output_size < RJ_PATTERN_LENGTH then none
  else extract_loop output_size (content.length + 1) content

/-! ## The identifier grammar, as the specification words it -/

/-- A decimal digit. -/
def is_digit (c : Nat) : Bool := decide ('0'.toNat ≤ c ∧ c ≤ '9'.toNat)

/-- The grammar of an identifier: `RJ-`, four decimal digits, `-`, five
decimal digits; thirteen characters in all. -/
def is_identifier : List Nat → Bool
  | [r, j, h1, y1, y2, y3, y4, h2, n1, n2, n3, n4, n5] =>
    r == 'R'.toNat && j == 'J'.toNat && h1 == '-'.toNat &&
    is_digit y1 && is_digit y2 && is_digit y3 && is_digit y4 &&
    h2 == '-'.toNat &&
    is_digit n1 && is_digit n2 && is_digit n3 && is_digit n4 && is_digit n5
  | _ => false

/-- The 13-character window `content[i .. i+13)` (shorter at the end of the
content). -/
def window (content : List Nat) (i : Nat) : List Nat := (content.drop i).take 13

/-- The first window, by ascending offset, that satisfies the grammar. -/
def first_window : List Nat → Option (List Nat)
  | [] => none
  | c :: cs =>
    if is_identifier ((c :: cs).take 13) then some ((c :: cs).take 13)
    else first_window cs

/-! ## Statistics -/

/-- The structure `Statistics` (source lines 17-22). -/
structure Statistics where
  total_files : Int
  renamed_files : Int
  skipped_files : Int
  error_files : Int
deriving DecidableEq, Repr

/-! ## The operating system, as the program observes it -/

/-- The value `INVALID_FILE_ATTRIBUTES` of the Windows headers. -/
def INVALID_FILE_ATTRIBUTES : Nat := 0xFFFFFFFF

/-- The bit `FILE_ATTRIBUTE_DIRECTORY` of the Windows headers. -/
def FILE_ATTRIBUTE_DIRECTORY : Nat := 0x10

/-- The error code `ERROR_FILE_NOT_FOUND` of the Windows headers. -/
def ERROR_FILE_NOT_FOUND : Nat := 2

/-- The error code `ERROR_NO_MORE_FILES` of the Windows headers. -/
def ERROR_NO_MORE_FILES : Nat := 18

/-- The state of the file system while one file is processed:
`GetFileAttributesA path` is the attribute word of the entry at `path`
(`INVALID_FILE_ATTRIBUTES` when there is none), `read path` is the content
that `fopen`, `fseek`, `ftell`, `malloc` and `fread` deliver (`none` when one
of them fails) and `rename old new` tells whether the C function `rename`
returns 0. -/
structure FileSystem where
  GetFileAttributesA : List Nat → Nat
  read : List Nat → Option (List Nat)
  rename : List Nat → List Nat → Bool

/-! ## C library functions used on paths -/

/-- The character `\`. -/
def BACKSLASH : Nat := 92

/-- The character `/`. -/
def SLASH : Nat := '/'.toNat

/-- The function `strrchr`, as the offset of the last occurrence of `c` from
the start of the string; `none` for `NULL`. -/
def strrchr : List Nat → Nat → Option Nat
  | [], _ => none
  | x :: xs, c =>
    match strrchr xs c with
    | some i => some (i + 1)
    | none => if x = c then some 0 else none

/-- The conversion `%d` of a non-negative number. -/
def decimal (n : Nat) : List Nat := (Nat.toDigits 10 n).map Char.toNat

/-- The function `snprintf(output, output_size, ...)` for `output_size > 0`,
where `s` is the formatted text: at most `output_size - 1` characters are
written. -/
def snprintf (output_size : Nat) (s : List Nat) : List Nat := s.take (output_size - 1)

/-- The width of `size_t`, as a modulus. -/
def SIZE_MODULUS : Nat := 2 ^ 64

/-- Subtraction of `size_t` values. -/
def size_sub (a b : Nat) : Nat := (a + SIZE_MODULUS - b % SIZE_MODULUS) % SIZE_MODULUS

/-- The function `tolower` of the C locale. -/
def tolower (c : Nat) : Nat := if 'A'.toNat ≤ c ∧ c ≤ 'Z'.toNat then c + 32 else c

/-- The function `_stricmp` of the Microsoft C runtime in the C locale: the
difference of the first pair of lowered characters that differ. -/
def _stricmp : List Nat → List Nat → Int
  | [], [] => 0
  | [], b :: _ => 0 - (tolower b : Int)
  | a :: _, [] => (tolower a : Int)
  | a :: as, b :: bs =>
    if tolower a = tolower b then _stricmp as bs else (tolower a : Int) - (tolower b : Int)

/-! ## File operations module -/

/-- The function `file_exists` (source lines 133-147). -/
def file_exists (fs : FileSystem) (filepath : List Nat) : Bool :=
  let attributes := fs.GetFileAttributesA filepath
  if attributes = INVALID_FILE_ATTRIBUTES then false
  else if attributes &&& FILE_ATTRIBUTE_DIRECTORY ≠ 0 then false
  else true

/-- The `while` loop of `generate_unique_name` (source lines 186-195), with
the current `suffix` and the current content of `output`; `fuel` bounds the
number of iterations. -/
def unique_name_loop (fs : FileSystem) (name_without_ext ext_pos : List Nat) (output_size : Nat) :
    Nat → Nat → List Nat → List Nat
  | 0, _, output => output
  | fuel + 1, suffix, output =>
    if suffix < 10000 then
      let output := snprintf output_size (name_without_ext ++ ascii "_" ++ decimal suffix ++ ext_pos)
      if !file_exists fs output then output
      else unique_name_loop fs name_without_ext ext_pos output_size fuel (suffix + 1) output
    else output

/-- The function `generate_unique_name` (source lines 155-199): the content
of `output` when the function returns.  The loop runs for the suffixes 1 to
9999, so 10000 iterations are never exceeded. -/
def generate_unique_name (fs : FileSystem) (base_name output : List Nat) (output_size : Nat) :
    List Nat :=
  if output_size = 0 then output
  else
    let output := base_name.take (output_size - 1)
    if !file_exists fs output then output
    else
      let split : List Nat × List Nat :=
        match strrchr base_name '.'.toNat with
        | some name_len =>
          (base_name.take (if name_len ≥ MAX_PATH_LENGTH then MAX_PATH_LENGTH - 1 else name_len),
           base_name.drop name_len)
        | none => (base_name.take (MAX_PATH_LENGTH - 1), [])
      unique_name_loop fs split.1 split.2 output_size 10000 1 output

/-- What a call of `rename_file` or `process_file` leaves behind: the return
value, the statistics, and the path handed to the C function `rename` (`none`
when `rename` is not called). -/
structure FileOutcome where
  ret : Int
  stats : Statistics
  final_path : Option (List Nat)
deriving DecidableEq, Repr

/-- The path `new_path` that `rename_file` builds from the directory part of
`old_path` and from `new_name` (source lines 217-241); `none` when the
path-too-long check rejects the rename. -/
def rename_new_path (old_path new_name : List Nat) : Option (List Nat) :=
  let last_separator :=
    match strrchr old_path BACKSLASH with
    | some i => some i
    | none => strrchr old_path SLASH
  match last_separator with
  | some i =>
    let dir_len := i + 1
    if dir_len ≥ size_sub (size_sub MAX_PATH_LENGTH new_name.length) 1 then none
    else
      some (old_path.take dir_len ++
        new_name.take (size_sub (size_sub MAX_PATH_LENGTH dir_len) 1))
  | none => some (new_name.take (MAX_PATH_LENGTH - 1))

/-- The function `rename_file` (source lines 208-272) for non-null
arguments. -/
def rename_file (fs : FileSystem) (old_path new_name : List Nat) (stats : Statistics) :
    FileOutcome :=
  match rename_new_path old_path new_name with
  | none => ⟨-1, { stats with error_files := stats.error_files + 1 }, none⟩
  | some new_path =>
    let final_path := generate_unique_name fs new_path [] MAX_PATH_LENGTH
    if fs.rename old_path final_path then
      ⟨0, { stats with renamed_files := stats.renamed_files + 1 }, some final_path⟩
    else
      ⟨-1, { stats with error_files := stats.error_files + 1 }, some final_path⟩

/-! ## File processing module -/

/-- The function `read_file_content` (source lines 282-341): the bytes of the
file, `none` for `NULL`. -/
def read_file_content (fs : FileSystem) (filepath : List Nat) : Option (List Nat) :=
  fs.read filepath

/-- The function `process_file` (source lines 349-394) for non-null
arguments. -/
def process_file (fs : FileSystem) (filepath : List Nat) (stats : Statistics) : FileOutcome :=
  match read_file_content fs filepath with
  | none => ⟨-1, { stats with error_files := stats.error_files + 1 }, none⟩
  | some content =>
    match extract_rj_pattern content RJ_PATTERN_LENGTH with
    | some rj_pattern =>
      let new_filename := snprintf MAX_PATH_LENGTH (rj_pattern ++ ascii ".txt")
      rename_file fs filepath new_filename stats
    | none => ⟨0, { stats with skipped_files := stats.skipped_files + 1 }, none⟩

/-! ## Directory traversal module -/

/-- The function `is_txt_file` (source lines 403-424). -/
def is_txt_file (filename : List Nat) : Bool :=
  let len := filename.length
  if len < 5 then false
  else
    let ext := filename.drop (len - 4)
    if _stricmp ext (ascii ".txt") = 0 then true else false

mutual
/-- What `FindFirstFileA` and `FindNextFileA` answer for one directory during
a run: either `FindFirstFileA` fails with the given error code, or the entries
are delivered in order (the first by `FindFirstFileA`) and then
`FindNextFileA` returns 0 with the given last error. -/
inductive Listing where
  | open_failed (error : Nat)
  | opened (first : DirEntry) (rest : List DirEntry) (last_error : Nat)
/-- One entry of an enumeration: the fields `cFileName` and
`dwFileAttributes` of `WIN32_FIND_DATAA`, the state of the file system at the
time the entry is handled, and the enumeration of the entry itself (used when
the entry is a directory). -/
inductive DirEntry where
  | mk (cFileName : List Nat) (dwFileAttributes : Nat) (fs : FileSystem) (sub : Listing)
end

/-- What a call of `process_directory` leaves behind: the return value, the
statistics, and the renames that succeeded, in order (source path and final
path). -/
structure DirOutcome where
  ret : Int
  stats : Statistics
  renames : List (List Nat × List Nat)

/-- The path `full_path` that the loop of `process_directory` builds for an
entry (source lines 489-497). -/
def build_full_path (dir_path cFileName : List Nat) : List Nat :=
  let base_len := dir_path.length
  let full_path := dir_path.take (MAX_PATH_LENGTH - 1)
  let full_path :=
    if base_len > 0 ∧ full_path.getD (base_len - 1) 0 ≠ BACKSLASH ∧
        full_path.getD (base_len - 1) 0 ≠ SLASH then
      full_path ++ [BACKSLASH].take (size_sub (size_sub MAX_PATH_LENGTH full_path.length) 1)
    else full_path
  full_path ++ cFileName.take (size_sub (size_sub MAX_PATH_LENGTH full_path.length) 1)

mutual
/-- The function `process_directory` (source lines 432-525) for non-null
arguments; `renames` collects the renames that succeeded so far. -/
def process_directory (dir_path : List Nat) :
    Listing → Statistics → List (List Nat × List Nat) → DirOutcome
  | .open_failed error, stats, renames =>
    if dir_path.length ≥ MAX_PATH_LENGTH - 3 then ⟨-1, stats, renames⟩
    else if error = ERROR_FILE_NOT_FOUND then ⟨0, stats, renames⟩
    else ⟨-1, stats, renames⟩
  | .opened first rest last_error, stats, renames =>
    if dir_path.length ≥ MAX_PATH_LENGTH - 3 then ⟨-1, stats, renames⟩
    else
      let after_first := process_entry dir_path first stats renames
      let after_rest := process_entries dir_path rest after_first.1 after_first.2
      if last_error ≠ ERROR_NO_MORE_FILES then ⟨-1, after_rest.1, after_rest.2⟩
      else ⟨0, after_rest.1, after_rest.2⟩
/-- One pass through the body of the `do ... while` loop of
`process_directory` (source lines 473-509). -/
def process_entry (dir_path : List Nat) :
    DirEntry → Statistics → List (List Nat × List Nat) →
      Statistics × List (List Nat × List Nat)
  | .mk cFileName dwFileAttributes fs sub, stats, renames =>
    if cFileName = ascii "." ∨ cFileName = ascii ".." then (stats, renames)
    else
      let base_len := dir_path.length
      if base_len + cFileName.length + 2 ≥ MAX_PATH_LENGTH then
        ({ stats with error_files := stats.error_files + 1 }, renames)
      else
        let full_path := build_full_path dir_path cFileName
        if dwFileAttributes &&& FILE_ATTRIBUTE_DIRECTORY ≠ 0 then
          let r := process_directory full_path sub stats renames
          (r.stats, r.renames)
        else if is_txt_file cFileName then
          let stats := { stats with total_files := stats.total_files + 1 }
          let r := process_file fs full_path stats
          (r.stats,
            match r.final_path with
            | some final_path => if r.ret = 0 then renames ++ [(full_path, final_path)] else renames
            | none => renames)
        else (stats, renames)
/-- The passes of the loop for the entries that `FindNextFileA` delivers. -/
def process_entries (dir_path : List Nat) :
    List DirEntry → Statistics → List (List Nat × List Nat) →
      Statistics × List (List Nat × List Nat)
  | [], stats, renames => (stats, renames)
  | entry :: rest, stats, renames =>
    let after := process_entry dir_path entry stats renames
    process_entries dir_path rest after.1 after.2
end

/-! ## Main entry point -/

/-- The function `validate_arguments` (source lines 535-568); `argc` is the
length of `argv`. -/
def validate_arguments (GetFileAttributesA : List Nat → Nat) (argv : List (List Nat)) : Int :=
  if argv.length ≠ 2 then 1
  else
    let dir_path := argv.getD 1 []
    let attributes := GetFileAttributesA dir_path
    if attributes = INVALID_FILE_ATTRIBUTES then 2
    else if attributes &&& FILE_ATTRIBUTE_DIRECTORY = 0 then 2
    else 0

/-- The function `main` (source lines 576-617): the exit code.
`GetFileAttributesA` is the state of the file system at start and `listing`
holds the answers of the directory enumeration during the run. -/
def main (GetFileAttributesA : List Nat → Nat) (listing : Listing) (argv : List (List Nat)) :
    Int :=
  let validation_result := validate_arguments GetFileAttributesA argv
  if validation_result ≠ 0 then validation_result
  else
    let target_directory := argv.getD 1 []
    let stats : Statistics := ⟨0, 0, 0, 0⟩
    let r := process_directory target_directory listing stats []
    if r.ret ≠ 0 then 3
    else if r.stats.error_files > 0 then 3
    else 0







/-! ## Example inputs -/

/-- A file system with no entry at all, where every read fails and every
rename succeeds. -/
def empty_fs : FileSystem :=
  ⟨fun _ => INVALID_FILE_ATTRIBUTES, fun _ => none, fun _ _ => true⟩

/-- A file system with no entry found by `GetFileAttributesA`, where every
file read delivers `content` and every rename succeeds. -/
def fs_with_content (content : List Nat) : FileSystem :=
  ⟨fun _ => INVALID_FILE_ATTRIBUTES, fun _ => some content, fun _ _ => true⟩

/-- The entry `..`, which follows the entry `.` at the start of an
enumeration. -/
def dot_entries : List DirEntry :=
  [.mk (ascii "..") FILE_ATTRIBUTE_DIRECTORY empty_fs (.open_failed 0)]

/-- A run over the root `C:\data/` (given with a trailing `/`), which holds
the single file `notes.txt` with the content `Ref RJ-2022-54321 attached.`. -/
def mixed_separator_listing : Listing :=
  .opened (.mk (ascii ".") FILE_ATTRIBUTE_DIRECTORY empty_fs (.open_failed 0))
    (dot_entries ++
      [.mk (ascii "notes.txt") 32 (fs_with_content (ascii "Ref RJ-2022-54321 attached."))
        (.open_failed 0)])
    ERROR_NO_MORE_FILES

/-- A run over a root that holds the subdirectory `locked`, whose enumeration
fails with `ERROR_ACCESS_DENIED` (5), and the file `plain.txt` without
identifier. -/
def locked_subdirectory_listing : Listing :=
  .opened (.mk (ascii ".") FILE_ATTRIBUTE_DIRECTORY empty_fs (.open_failed 0))
    (dot_entries ++
      [.mk (ascii "locked") FILE_ATTRIBUTE_DIRECTORY empty_fs (.open_failed 5),
       .mk (ascii "plain.txt") 32 (fs_with_content (ascii "nothing to see")) (.open_failed 0)])
    ERROR_NO_MORE_FILES

/-! ## Wording of the specification -/

/-- The name ends in `.txt`, its last four characters compared without regard
to ASCII case. -/
def ends_in_txt (filename : List Nat) : Bool :=
  match filename.reverse with
  | t2 :: x :: t1 :: d :: _ =>
    decide (d = '.'.toNat ∧ (t1 = 't'.toNat ∨ t1 = 'T'.toNat) ∧
      (x = 'x'.toNat ∨ x = 'X'.toNat) ∧ (t2 = 't'.toNat ∨ t2 = 'T'.toNat))
  | _ => false

/-- The statistics after one more error. -/
def add_error (stats : Statistics) : Statistics :=
  ⟨stats.total_files, stats.renamed_files, stats.skipped_files, stats.error_files + 1⟩

/-- The statistics after one more skipped file. -/
def add_skipped (stats : Statistics) : Statistics :=
  ⟨stats.total_files, stats.renamed_files, stats.skipped_files + 1, stats.error_files⟩

/-- The statistics after one more renamed file. -/
def add_renamed (stats : Statistics) : Statistics :=
  ⟨stats.total_files, stats.renamed_files + 1, stats.skipped_files, stats.error_files⟩

/-- The sum `renamed_files + skipped_files + error_files` less `total_files`. -/
def excess (stats : Statistics) : Int :=
  stats.renamed_files + stats.skipped_files + stats.error_files - stats.total_files

mutual
/-- The number of entries that the path-too-long check of
`process_directory` (source lines 482-487) rejects during a run. -/
def rejected_entries (dir_path : List Nat) : Listing → Nat
  | .open_failed _ => 0
  | .opened first rest _ =>
    if dir_path.length ≥ MAX_PATH_LENGTH - 3 then 0
    else rejected_entry dir_path first + rejected_in_list dir_path rest
/-- The rejected entries at and below one entry. -/
def rejected_entry (dir_path : List Nat) : DirEntry → Nat
  | .mk cFileName dwFileAttributes _ sub =>
    if cFileName = ascii "." ∨ cFileName = ascii ".." then 0
    else if dir_path.length + cFileName.length + 2 ≥ MAX_PATH_LENGTH then 1
    else if dwFileAttributes &&& FILE_ATTRIBUTE_DIRECTORY ≠ 0 then
      rejected_entries (build_full_path dir_path cFileName) sub
    else 0
/-- The rejected entries at and below the entries of a list. -/
def rejected_in_list (dir_path : List Nat) : List DirEntry → Nat
  | [] => 0
  | entry :: rest => rejected_entry dir_path entry + rejected_in_list dir_path rest
end

/-- A run over the root `C:\data`, which holds a single entry whose name has
251 characters (247 times `a`, then `.txt`). -/
def long_name_listing : Listing :=
  .opened (.mk (ascii ".") FILE_ATTRIBUTE_DIRECTORY empty_fs (.open_failed 0))
    (dot_entries ++
      [.mk (List.replicate 247 'a'.toNat ++ ascii ".txt") 32
        (fs_with_content (ascii "Ref RJ-2022-54321 attached.")) (.open_failed 0)])
    ERROR_NO_MORE_FILES

/-- A file system whose regular files are exactly the paths of `files`
(attribute word `FILE_ATTRIBUTE_ARCHIVE`), without directories; every read
fails and every rename succeeds. -/
def fs_with_files (files : List (List Nat)) : FileSystem :=
  ⟨fun p => if p ∈ files then 32 else INVALID_FILE_ATTRIBUTES, fun _ => none, fun _ _ => true⟩

/-- A file system whose only entry is a directory at `path`. -/
def fs_with_directory (path : List Nat) : FileSystem :=
  ⟨fun p => if p = path then FILE_ATTRIBUTE_DIRECTORY else INVALID_FILE_ATTRIBUTES,
    fun _ => none, fun _ _ => true⟩

/-- The candidates of the specification: the desired path `stem ++ ext`
itself for 0, then `stem_1ext`, `stem_2ext`, ... -/
def unique_candidate (stem ext : List Nat) : Nat → List Nat
  | 0 => stem ++ ext
  | suffix + 1 => stem ++ ascii "_" ++ decimal (suffix + 1) ++ ext

/-- The split of the specification: `ext` is the substring of `path` from its
last `.` to the end (empty when there is no `.`) and `stem` is what precedes
it. -/
def is_stem_ext (path stem ext : List Nat) : Bool :=
  path == stem ++ ext &&
    match ext with
    | [] => !path.contains '.'.toNat
    | c :: rest => c == '.'.toNat && !rest.contains '.'.toNat

/-! ## Files that already carry their identifier -/

/-- A file system whose only entry is a regular file at `path` with the
given content; every rename succeeds. -/
def fs_with_text_file (path content : List Nat) : FileSystem :=
  ⟨fun p => if p = path then 32 else INVALID_FILE_ATTRIBUTES,
    fun p => if p = path then some content else none, fun _ _ => true⟩

/-- The directory part `<dir>` of a path `<dir><leaf>`, where the leaf has no
separator, as `rename_file` can find it: empty (a file of the current
directory), or ending in a backslash, or ending in `/` and without any
backslash. -/
def is_directory_part (dir : List Nat) : Bool :=
  match dir.reverse with
  | [] => true
  | c :: rest => c == BACKSLASH || (c == SLASH && !rest.contains BACKSLASH)

/-- The directory `C:\aa...a\` with `n` times `a`; it has `n + 4`
characters. -/
def long_directory (n : Nat) : List Nat :=
  ascii "C:\\" ++ List.replicate n 'a'.toNat ++ ascii "\\"

/-! ## Lemmas on the C string functions -/

theorem c_str_length (l : List Nat) : (c_str l).length = strlen l := by
  induction l with
  | nil => rfl
  | cons c cs ih =>
    by_cases h : c = 0 <;> simp [c_str, strlen, h, ih]

theorem strlen_le_length (w : List Nat) : strlen w ≤ w.length := by
  induction w with
  | nil => simp [strlen]
  | cons c cs ih =>
    by_cases hc : c = 0 <;> simp [strlen, hc] ; omega

theorem strlen_eq_length_iff (w : List Nat) : strlen w = w.length ↔ ∀ c ∈ w, c ≠ 0 := by
  induction w with
  | nil => simp [strlen]
  | cons c cs ih =>
    by_cases hc : c = 0
    · simp [strlen, hc]
    · simp [strlen, hc, ih]

theorem c_str_eq_self (w : List Nat) (h : ∀ c ∈ w, c ≠ 0) : c_str w = w := by
  induction w with
  | nil => rfl
  | cons c cs ih =>
    have hc : c ≠ 0 := h c (by simp)
    simp [c_str, hc, ih (fun x hx => h x (by simp [hx]))]

theorem c_str_initial (l : List Nat) : c_str l <+: l := by
  induction l with
  | nil => simp [c_str]
  | cons c cs ih =>
    by_cases hc : c = 0
    · simp [c_str, hc]
    · simp only [c_str, hc, if_false]
      exact (List.prefix_cons_inj c).mpr ih

theorem c_str_nonzero (l : List Nat) : ∀ c ∈ c_str l, c ≠ 0 := by
  induction l with
  | nil => simp [c_str]
  | cons c cs ih =>
    by_cases hc : c = 0
    · simp [c_str, hc]
    · intro x hx
      simp only [c_str, hc, if_false, List.mem_cons] at hx
      rcases hx with rfl | hx
      · exact hc
      · exact ih x hx

theorem strstr_some (needle : List Nat) :
    ∀ (hay p : List Nat), strstr hay needle = some p →
      p.length ≤ hay.length ∧ needle.isPrefixOf p = true := by
  intro hay
  induction hay with
  | nil =>
    intro p h
    by_cases hn : needle.isPrefixOf [] = true
    · simp [strstr, hn] at h
      subst h
      exact ⟨le_refl _, hn⟩
    · simp [strstr, hn] at h
  | cons c cs ih =>
    intro p h
    by_cases hn : needle.isPrefixOf (c :: cs) = true
    · simp [strstr, hn] at h
      subst h
      exact ⟨le_refl _, hn⟩
    · by_cases hc : c = 0
      · rw [strstr, if_neg hn, if_pos hc] at h
        cases h
      · rw [strstr, if_neg hn, if_neg hc] at h
        obtain ⟨h1, h2⟩ := ih p h
        exact ⟨by simp; omega, h2⟩

/-! ## The pattern module against the grammar -/

theorem is_identifier_length (w : List Nat) (h : is_identifier w = true) : w.length = 13 := by
  match w, h with
  | [_, _, _, _, _, _, _, _, _, _, _, _, _], _ => rfl

theorem is_identifier_starts (w : List Nat) (h : is_identifier w = true) :
    (ascii "RJ-").isPrefixOf w = true := by
  match w, h with
  | [a0, a1, a2, _, _, _, _, _, _, _, _, _, _], h =>
    simp [is_identifier] at h
    simp [ascii, List.isPrefixOf, h]

theorem validate_eq_is_identifier (w : List Nat) (h : w.length = 13) :
    validate_rj_pattern w = is_identifier w := by
  have hs : ¬ (strlen w < 13) ↔ ∀ c ∈ w, c ≠ 0 := by
    rw [← strlen_eq_length_iff, h]
    have := strlen_le_length w
    omega
  match w, h with
  | [a0, a1, a2, a3, a4, a5, a6, a7, a8, a9, a10, a11, a12], _ =>
    rw [Bool.eq_iff_iff]
    simp only [validate_rj_pattern, RJ_PATTERN_LENGTH, is_identifier, is_digit]
    by_cases hlt : strlen [a0, a1, a2, a3, a4, a5, a6, a7, a8, a9, a10, a11, a12] < 13
    · have hex : ¬ ∀ c ∈ [a0, a1, a2, a3, a4, a5, a6, a7, a8, a9, a10, a11, a12], c ≠ 0 :=
        fun hall => (hs.mpr hall) hlt
      simp [hlt]
      simp at hex
      intro h0 h1 h2 h3 h4 h5 h6 h7 h8 h9 h10 h11 h12 h13 h14 h15 h16
      omega
    · simp [hlt, List.range']
      tauto

theorem first_window_strstr (hay : List Nat) :
    first_window (c_str hay) =
      match strstr hay (ascii "RJ-") with
      | none => none
      | some p => first_window (c_str p) := by
  induction hay with
  | nil => simp [strstr, ascii, c_str, first_window]
  | cons c cs ih =>
    by_cases hn : (ascii "RJ-").isPrefixOf (c :: cs) = true
    · simp [strstr, hn]
    · by_cases hc : c = 0
      · rw [strstr, if_neg hn, if_pos hc]
        simp [c_str, hc, first_window]
      · have hid : is_identifier ((c :: c_str cs).take 13) = false := by
          cases hi : is_identifier ((c :: c_str cs).take 13) with
          | false => rfl
          | true =>
            exfalso
            apply hn
            have h1 := List.isPrefixOf_iff_prefix.mp (is_identifier_starts _ hi)
            have h2 : (c :: c_str cs) <+: (c :: cs) := (List.prefix_cons_inj c).mpr (c_str_initial cs)
            exact List.isPrefixOf_iff_prefix.mpr ((h1.trans ( List.take_prefix _ _)).trans h2)
        rw [strstr, if_neg hn, if_neg hc, ← ih]
        simp only [c_str, hc, if_false]
        rw [first_window, if_neg (by rw [hid]; exact Bool.false_ne_true)]

theorem extract_loop_eq (output_size : Nat) (hsize : RJ_PATTERN_LENGTH ≤ output_size) :
    ∀ (fuel : Nat) (ptr : List Nat), ptr.length < fuel →
      extract_loop output_size fuel ptr = first_window (c_str ptr) := by
  intro fuel
  induction fuel with
  | zero => intro ptr h; omega
  | succ fuel ih =>
    intro ptr hlen
    rw [first_window_strstr ptr]
    unfold extract_loop
    cases hs : strstr ptr (ascii "RJ-") with
    | none => rfl
    | some p =>
      obtain ⟨hple, hpre⟩ := strstr_some _ _ _ hs
      match p, hple, hpre with
      | [], _, hpre => simp [ascii, List.isPrefixOf] at hpre
      | c :: cs, hple, hpre =>
        have hc : c ≠ 0 := by
          simp [ascii, List.isPrefixOf] at hpre
          omega
        have hcs : cs.length < fuel := by simp at hple; omega
        have hrec := ih cs hcs
        have hcstr : c_str (c :: cs) = c :: c_str cs := by simp [c_str, hc]
        simp only [RJ_PATTERN_LENGTH] at hsize
        simp only [RJ_PATTERN_LENGTH, Nat.add_one_sub_one, List.drop_succ_cons, List.drop_zero,
          strncpy, hrec, hcstr, first_window]
        by_cases hl : strlen (c :: cs) ≥ 13
        · have hl13 : ((c :: c_str cs).take 13).length = 13 := by
            rw [List.length_take, ← hcstr, c_str_length]
            omega
          have hnz : ∀ x ∈ (c :: c_str cs).take 13, x ≠ 0 := by
            intro x hx
            have := List.mem_of_mem_take hx
            rw [← hcstr] at this
            exact c_str_nonzero _ x this
          rw [if_pos hl, c_str_eq_self _ hnz, validate_eq_is_identifier _ hl13]
          by_cases hid : is_identifier ((c :: c_str cs).take 13) = true
          · rw [if_pos hid, if_pos hid, List.take_of_length_le (by omega)]
          · rw [if_neg hid, if_neg hid]
        · rw [if_neg hl]
          have hid : ¬ is_identifier ((c :: c_str cs).take 13) = true := by
            intro hi
            have h13 := is_identifier_length _ hi
            rw [List.length_take, ← hcstr, c_str_length] at h13
            omega
          rw [if_neg hid]

theorem extract_eq_first_window (content : List Nat) (output_size : Nat)
    (hsize : RJ_PATTERN_LENGTH ≤ output_size) :
    extract_rj_pattern content output_size = first_window (c_str content) := by
  unfold extract_rj_pattern
  rw [if_neg (by omega), extract_loop_eq output_size hsize _ _ (Nat.lt_succ_self _)]

theorem window_nil (i : Nat) : window [] i = [] := by simp [window]

theorem window_cons_zero (c : Nat) (cs : List Nat) : window (c :: cs) 0 = (c :: cs).take 13 := by
  simp [window]

theorem window_cons_succ (c : Nat) (cs : List Nat) (i : Nat) :
    window (c :: cs) (i + 1) = window cs i := by
  simp [window]

theorem first_window_eq_none (l : List Nat) :
    first_window l = none ↔ ∀ i, is_identifier (window l i) = false := by
  induction l with
  | nil => simp [first_window, window_nil, is_identifier]
  | cons c cs ih =>
    cases hid : is_identifier ((c :: cs).take 13) with
    | true =>
      simp only [first_window, hid, if_true]
      constructor
      · intro h; cases h
      · intro h
        have := h 0
        rw [window_cons_zero, hid] at this
        cases this
    | false =>
      rw [first_window, if_neg (by rw [hid]; exact Bool.false_ne_true), ih]
      constructor
      · intro h i
        cases i with
        | zero => rw [window_cons_zero]; exact hid
        | succ i => rw [window_cons_succ]; exact h i
      · intro h i
        have := h (i + 1)
        rwa [window_cons_succ] at this

theorem first_window_eq_some (l : List Nat) :
    ∀ i, is_identifier (window l i) = true →
      (∀ j, j < i → is_identifier (window l j) = false) →
      first_window l = some (window l i) := by
  induction l with
  | nil => intro i h; simp [window_nil, is_identifier] at h
  | cons c cs ih =>
    intro i hi hmin
    cases i with
    | zero =>
      rw [window_cons_zero] at hi ⊢
      rw [first_window, if_pos hi]
    | succ i =>
      have h0 := hmin 0 (Nat.succ_pos i)
      rw [window_cons_zero] at h0
      rw [window_cons_succ] at hi ⊢
      rw [first_window, if_neg (by rw [h0]; exact Bool.false_ne_true)]
      apply ih i hi
      intro j hj
      have := hmin (j + 1) (by omega)
      rwa [window_cons_succ] at this

theorem first_window_isSome (l : List Nat) :
    (first_window l).isSome = true ↔ ∃ i, is_identifier (window l i) = true := by
  rw [← Option.ne_none_iff_isSome, Ne, first_window_eq_none]
  simp

/-! ## Properties of the pattern module -/

/-- C1: for a content without zero byte and an output buffer of at least 14
bytes, `extract_rj_pattern` succeeds exactly when some 13-character window of
the content has the form `RJ-dddd-ddddd`, and it then returns the window at
the smallest such offset; nothing to the left of the window is checked.  The
four examples of the specification are part of the statement. -/
theorem extract_rj_pattern_leftmost_window (content : List Nat) (output_size : Nat)
    (hzero : ∀ c ∈ content, c ≠ 0) (hsize : RJ_PATTERN_LENGTH ≤ output_size) :
    ((extract_rj_pattern content output_size).isSome = true ↔
      ∃ i, is_identifier (window content i) = true) ∧
    (∀ i, is_identifier (window content i) = true →
      (∀ j, j < i → is_identifier (window content j) = false) →
      extract_rj_pattern content output_size = some (window content i)) ∧
    extract_rj_pattern (ascii "see RJ-2024-00099 and RJ-2023-00001") output_size =
      some (ascii "RJ-2024-00099") ∧
    extract_rj_pattern (ascii "XRJ-2024-00001") output_size = some (ascii "RJ-2024-00001") ∧
    extract_rj_pattern (ascii "RJ-202-00001") output_size = none ∧
    extract_rj_pattern (ascii "RJ-2024-0001") output_size = none := by
  refine ⟨?_, ?_, ?_, ?_, ?_, ?_⟩
  · rw [extract_eq_first_window _ _ hsize, c_str_eq_self _ hzero]
    exact first_window_isSome content
  · intro i hi hmin
    rw [extract_eq_first_window _ _ hsize, c_str_eq_self _ hzero]
    exact first_window_eq_some content i hi hmin
  · rw [extract_eq_first_window _ _ hsize]; decide
  · rw [extract_eq_first_window _ _ hsize]; decide
  · rw [extract_eq_first_window _ _ hsize]; decide
  · rw [extract_eq_first_window _ _ hsize]; decide

/-- Witness of C1: the content `XRJ-2024-00001` with a 14-byte buffer. -/
theorem extract_rj_pattern_leftmost_window_witness :
    (∀ c ∈ ascii "XRJ-2024-00001", c ≠ 0) ∧ RJ_PATTERN_LENGTH ≤ 14 ∧
    extract_rj_pattern (ascii "XRJ-2024-00001") 14 = some (window (ascii "XRJ-2024-00001") 1) :=
  ⟨by decide, by decide,
    (extract_rj_pattern_leftmost_window (ascii "XRJ-2024-00001") 14 (by decide) (by decide)).2.1
      1 (by decide) (by decide)⟩

/-- C2 (the code at the failing input): on the content `RJ-2024-123456`
`extract_rj_pattern` returns `RJ-2024-12345`, although the window is followed
by the digit `6`.  `validate_rj_pattern` does reject the untruncated text, but
`extract_rj_pattern` hands it the 13-character copy, whose fourteenth cell is
the terminator. -/
theorem extract_rj_pattern_ignores_right_boundary :
    extract_rj_pattern (ascii "RJ-2024-123456") RJ_PATTERN_LENGTH =
      some (ascii "RJ-2024-12345") ∧
    validate_rj_pattern (ascii "RJ-2024-123456") = false ∧
    validate_rj_pattern (strncpy (ascii "RJ-2024-123456") (RJ_PATTERN_LENGTH - 1)) = true := by
  decide

/-- C10 (counterexample): the leftmost-window property fails for contents
with a zero byte.  In the content made of one zero byte followed by
`RJ-2022-54321` the window at offset 1 is a valid identifier, yet
`extract_rj_pattern` reports nothing and `process_file` counts the file as
skipped. -/
theorem extract_rj_pattern_zero_byte_counterexample :
    (¬ ∀ (content : List Nat) (i : Nat), is_identifier (window content i) = true →
      (∀ j, j < i → is_identifier (window content j) = false) →
      extract_rj_pattern content RJ_PATTERN_LENGTH = some (window content i)) ∧
    is_identifier (window (0 :: ascii "RJ-2022-54321") 1) = true ∧
    extract_rj_pattern (0 :: ascii "RJ-2022-54321") RJ_PATTERN_LENGTH = none ∧
    process_file (fs_with_content (0 :: ascii "RJ-2022-54321")) (ascii "C:\\data\\notes.txt")
      ⟨1, 0, 0, 0⟩ = ⟨0, ⟨1, 0, 1, 0⟩, none⟩ := by
  refine ⟨?_, by decide, by decide, by decide⟩
  intro h
  have h1 := h (0 :: ascii "RJ-2022-54321") 1 (by decide) (by decide)
  revert h1
  decide

/-- C10 (amended): extraction, as `process_file` calls it, is byte-oriented
over the part of the content that precedes the first zero byte: it succeeds
exactly when that part has a window of the form `RJ-dddd-ddddd` and returns
the leftmost such window. -/
theorem extract_rj_pattern_before_first_zero (content : List Nat) :
    ((extract_rj_pattern content RJ_PATTERN_LENGTH).isSome = true ↔
      ∃ i, is_identifier (window (c_str content) i) = true) ∧
    (∀ i, is_identifier (window (c_str content) i) = true →
      (∀ j, j < i → is_identifier (window (c_str content) j) = false) →
      extract_rj_pattern content RJ_PATTERN_LENGTH = some (window (c_str content) i)) ∧
    (∀ (fs : FileSystem) (filepath : List Nat) (stats : Statistics),
      fs.read filepath = some content →
      (∀ i, is_identifier (window (c_str content) i) = false) →
      process_file fs filepath stats =
        ⟨0, { stats with skipped_files := stats.skipped_files + 1 }, none⟩) := by
  refine ⟨?_, ?_, ?_⟩
  · rw [extract_eq_first_window _ _ (le_refl _)]
    exact first_window_isSome _
  · intro i hi hmin
    rw [extract_eq_first_window _ _ (le_refl _)]
    exact first_window_eq_some _ i hi hmin
  · intro fs filepath stats hread hnone
    have h := (first_window_eq_none (c_str content)).mpr hnone
    rw [← extract_eq_first_window _ _ (le_refl _)] at h
    simp [process_file, read_file_content, hread, h]

/-! ## Properties of the traversal filter -/

theorem tolower_eq_dot (a : Nat) : tolower a = tolower 46 ↔ a = 46 := by
  simp only [tolower, Char.reduceToNat]
  split_ifs <;> omega

theorem tolower_eq_t (a : Nat) : tolower a = tolower 116 ↔ (a = 116 ∨ a = 84) := by
  simp only [tolower, Char.reduceToNat]
  split_ifs <;> omega

theorem tolower_eq_x (a : Nat) : tolower a = tolower 120 ↔ (a = 120 ∨ a = 88) := by
  simp only [tolower, Char.reduceToNat]
  split_ifs <;> omega

theorem stricmp_txt (a b c d : Nat) :
    _stricmp [a, b, c, d] (ascii ".txt") = 0 ↔
      a = '.'.toNat ∧ (b = 't'.toNat ∨ b = 'T'.toNat) ∧ (c = 'x'.toNat ∨ c = 'X'.toNat) ∧
        (d = 't'.toNat ∨ d = 'T'.toNat) := by
  have h : ascii ".txt" = [46, 116, 120, 116] := by decide
  rw [h]
  simp only [Char.reduceToNat]
  rw [← tolower_eq_dot a, ← tolower_eq_t b, ← tolower_eq_x c, ← tolower_eq_t d]
  simp only [_stricmp]
  by_cases ha : tolower a = tolower 46
  · by_cases hb : tolower b = tolower 116
    · by_cases hc : tolower c = tolower 120
      · by_cases hd : tolower d = tolower 116
        · simp [ha, hb, hc, hd]
        · simp only [ha, hb, hc, hd, if_true, if_false, and_false, and_true, iff_false]
          omega
      · simp only [ha, hb, hc, if_true, if_false, and_false, false_and, and_true, iff_false]
        omega
    · simp only [ha, hb, if_true, if_false, and_false, false_and, and_true, iff_false]
      omega
  · simp only [ha, if_false, false_and, iff_false]
    omega

theorem ends_in_txt_append (stem : List Nat) (a b c d : Nat) :
    ends_in_txt (stem ++ [a, b, c, d]) = true ↔
      a = '.'.toNat ∧ (b = 't'.toNat ∨ b = 'T'.toNat) ∧ (c = 'x'.toNat ∨ c = 'X'.toNat) ∧
        (d = 't'.toNat ∨ d = 'T'.toNat) := by
  simp [ends_in_txt]

theorem is_txt_file_iff_aux (filename : List Nat) :
    is_txt_file filename = true ↔ (5 ≤ filename.length ∧ ends_in_txt filename = true) := by
  unfold is_txt_file
  by_cases hlen : filename.length < 5
  · simp only [hlen, if_true]
    constructor
    · intro h; cases h
    · intro h; omega
  · simp only [hlen, if_false]
    have hl : (filename.drop (filename.length - 4)).length = 4 := by
      rw [List.length_drop]; omega
    have hsplit : filename =
        filename.take (filename.length - 4) ++ filename.drop (filename.length - 4) :=
      (List.take_append_drop _ _).symm
    match hext : filename.drop (filename.length - 4), hl with
    | [a, b, c, d], _ =>
      rw [hext] at hsplit
      have hends := ends_in_txt_append (filename.take (filename.length - 4)) a b c d
      rw [← hsplit] at hends
      rw [hends, ← stricmp_txt a b c d]
      constructor
      · intro h
        refine ⟨by omega, ?_⟩
        by_contra hne
        simp [hne] at h
      · rintro ⟨_, h0⟩
        simp [h0]

/-- C9 (counterexample): the name `.txt` ends in `.txt`, yet `is_txt_file`
returns 0 for it, so the plain equivalence fails. -/
theorem is_txt_file_bare_extension_counterexample :
    (¬ ∀ filename : List Nat, is_txt_file filename = true ↔ ends_in_txt filename = true) ∧
    is_txt_file (ascii ".txt") = false ∧ ends_in_txt (ascii ".txt") = true := by
  have hends : ends_in_txt (ascii ".txt") = true := by decide
  have hfalse : is_txt_file (ascii ".txt") = false := by decide
  refine ⟨?_, hfalse, hends⟩
  intro h
  have := (h (ascii ".txt")).mpr hends
  rw [hfalse] at this
  cases this

/-- C9 (amended): `is_txt_file` returns 1 if and only if the name has at
least five characters and ends in `.txt` under ASCII case-insensitive
comparison of its last four characters. -/
theorem is_txt_file_iff (filename : List Nat) :
    is_txt_file filename = true ↔ (5 ≤ filename.length ∧ ends_in_txt filename = true) :=
  is_txt_file_iff_aux filename

/-! ## Properties of the statistics of one file -/

/-- C6: one call of `process_file` leaves `total_files` unchanged and adds
exactly one to exactly one of the three other counters: to `error_files`
when the content cannot be read or when the rename is rejected (by the
path-too-long check, where `rename` is not called, or by the operating
system), to `skipped_files` when no identifier is found, to `renamed_files`
when the rename succeeds. -/
theorem process_file_counts_once (fs : FileSystem) (filepath : List Nat) (stats : Statistics) :
    (process_file fs filepath stats).stats.total_files = stats.total_files ∧
    ((process_file fs filepath stats).stats = add_error stats ∨
      (process_file fs filepath stats).stats = add_skipped stats ∨
      (process_file fs filepath stats).stats = add_renamed stats) ∧
    (add_error stats ≠ add_skipped stats ∧ add_error stats ≠ add_renamed stats ∧
      add_skipped stats ≠ add_renamed stats) ∧
    (read_file_content fs filepath = none →
      (process_file fs filepath stats).stats = add_error stats) ∧
    (∀ content, read_file_content fs filepath = some content →
      extract_rj_pattern content RJ_PATTERN_LENGTH = none →
      (process_file fs filepath stats).stats = add_skipped stats) ∧
    (∀ content rj_pattern, read_file_content fs filepath = some content →
      extract_rj_pattern content RJ_PATTERN_LENGTH = some rj_pattern →
      ((process_file fs filepath stats).ret = 0 ↔
        ∃ final_path, (process_file fs filepath stats).final_path = some final_path ∧
          fs.rename filepath final_path = true) ∧
      ((process_file fs filepath stats).ret = 0 →
        (process_file fs filepath stats).stats = add_renamed stats) ∧
      ((process_file fs filepath stats).ret ≠ 0 →
        (process_file fs filepath stats).stats = add_error stats)) := by
  have hne : add_error stats ≠ add_skipped stats ∧ add_error stats ≠ add_renamed stats ∧
      add_skipped stats ≠ add_renamed stats := by
    simp [add_error, add_skipped, add_renamed]
  have hrename : ∀ new_name,
      ((rename_file fs filepath new_name stats).ret = 0 ∧
        (rename_file fs filepath new_name stats).stats = add_renamed stats ∧
        ∃ final_path, (rename_file fs filepath new_name stats).final_path = some final_path ∧
          fs.rename filepath final_path = true) ∨
      ((rename_file fs filepath new_name stats).ret = -1 ∧
        (rename_file fs filepath new_name stats).stats = add_error stats ∧
        ¬ ∃ final_path, (rename_file fs filepath new_name stats).final_path = some final_path ∧
          fs.rename filepath final_path = true) := by
    intro new_name
    unfold rename_file
    cases rename_new_path filepath new_name with
    | none => right; simp [add_error]
    | some new_path =>
      by_cases hr : fs.rename filepath (generate_unique_name fs new_path [] MAX_PATH_LENGTH) = true
      · left; simp [hr, add_renamed]
      · right; simp [hr, add_error]
  cases hread : read_file_content fs filepath with
  | none =>
    have hp : process_file fs filepath stats = ⟨-1, add_error stats, none⟩ := by
      simp [process_file, hread, add_error]
    rw [hp]
    refine ⟨rfl, Or.inl rfl, hne, fun _ => rfl, ?_, ?_⟩
    · intro content h; cases h
    · intro content rj_pattern h; cases h
  | some content =>
    cases hext : extract_rj_pattern content RJ_PATTERN_LENGTH with
    | none =>
      have hp : process_file fs filepath stats = ⟨0, add_skipped stats, none⟩ := by
        simp [process_file, hread, hext, add_skipped]
      rw [hp]
      refine ⟨rfl, Or.inr (Or.inl rfl), hne, ?_, fun _ _ _ => rfl, ?_⟩
      · intro h; cases h
      · intro content2 rj_pattern h1 h2
        cases h1
        rw [hext] at h2
        cases h2
    | some rj_pattern =>
      have hp : process_file fs filepath stats =
          rename_file fs filepath (snprintf MAX_PATH_LENGTH (rj_pattern ++ ascii ".txt")) stats := by
        simp [process_file, hread, hext]
      rw [hp]
      rcases hrename (snprintf MAX_PATH_LENGTH (rj_pattern ++ ascii ".txt")) with
        ⟨h1, h2, h3⟩ | ⟨h1, h2, h3⟩
      · refine ⟨by rw [h2]; rfl, Or.inr (Or.inr h2), hne, ?_, ?_, ?_⟩
        · intro h; cases h
        · intro content2 h4 h5
          cases h4
          rw [hext] at h5
          cases h5
        · intro _ _ _ _
          exact ⟨⟨fun _ => h3, fun _ => h1⟩, fun _ => h2, fun hn => absurd h1 hn⟩
      · refine ⟨by rw [h2]; rfl, Or.inl h2, hne, ?_, ?_, ?_⟩
        · intro h; cases h
        · intro content2 h4 h5
          cases h4
          rw [hext] at h5
          cases h5
        · intro _ _ _ _
          refine ⟨⟨fun h0 => ?_, fun h => absurd h h3⟩, fun h0 => ?_, fun _ => h2⟩
          · rw [h1] at h0; cases h0
          · rw [h1] at h0; cases h0

/-! ## Properties of the directory part of a rename -/

/-- C5 (the code at the failing input): for the root `C:\data/`,
`process_directory` builds the path `C:\data/notes.txt`; `rename_file` takes
the last backslash as the end of the directory part, although a `/` follows
it, and renames the file to `C:\RJ-2022-54321.txt`, outside its directory
`C:\data/`. -/
theorem rename_file_mixed_separators_leave_directory :
    build_full_path (ascii "C:\\data/") (ascii "notes.txt") = ascii "C:\\data/notes.txt" ∧
    rename_file empty_fs (ascii "C:\\data/notes.txt") (ascii "RJ-2022-54321.txt") ⟨1, 0, 0, 0⟩ =
      ⟨0, ⟨1, 1, 0, 0⟩, some (ascii "C:\\RJ-2022-54321.txt")⟩ ∧
    (process_directory (ascii "C:\\data/") mixed_separator_listing ⟨0, 0, 0, 0⟩ []).renames =
      [(ascii "C:\\data/notes.txt", ascii "C:\\RJ-2022-54321.txt")] ∧
    rename_file empty_fs (ascii "C:\\data\\notes.txt") (ascii "RJ-2022-54321.txt")
      ⟨1, 0, 0, 0⟩ = ⟨0, ⟨1, 1, 0, 0⟩, some (ascii "C:\\data\\RJ-2022-54321.txt")⟩ := by
  decide

/-! ## Properties of the exit code -/

/-- C8 (the code at the failing input): the root holds the subdirectory
`locked`, whose enumeration fails, and the file `plain.txt`.  The recursive
call returns -1, the sibling `plain.txt` is still processed (skipped), but the
return value of the recursive call is dropped and no counter records the
failure: `process_directory` returns 0 for the root and `main` exits with 0,
not with 3.  The same failure at the root makes `main` exit with 3. -/
theorem main_drops_nested_enumeration_failure :
    (process_directory (ascii "C:\\data\\locked") (.open_failed 5) ⟨0, 0, 0, 0⟩ []).ret = -1 ∧
    (process_directory (ascii "C:\\data") locked_subdirectory_listing ⟨0, 0, 0, 0⟩ []).ret = 0 ∧
    (process_directory (ascii "C:\\data") locked_subdirectory_listing ⟨0, 0, 0, 0⟩ []).stats =
      ⟨1, 0, 1, 0⟩ ∧
    main (fun _ => FILE_ATTRIBUTE_DIRECTORY) locked_subdirectory_listing
      [ascii "rename_files.exe", ascii "C:\\data"] = 0 ∧
    main (fun _ => FILE_ATTRIBUTE_DIRECTORY) (.open_failed 5)
      [ascii "rename_files.exe", ascii "C:\\data"] = 3 := by
  decide

/-! ## Properties of the statistics of a run -/

theorem rename_file_stats_cases (fs : FileSystem) (old_path new_name : List Nat)
    (stats : Statistics) :
    (rename_file fs old_path new_name stats).stats = add_error stats ∨
      (rename_file fs old_path new_name stats).stats = add_renamed stats := by
  unfold rename_file
  cases rename_new_path old_path new_name with
  | none => left; rfl
  | some new_path =>
    by_cases hr : fs.rename old_path (generate_unique_name fs new_path [] MAX_PATH_LENGTH) = true
    · right; simp [hr, add_renamed]
    · left; simp [hr, add_error]

theorem process_file_stats_cases (fs : FileSystem) (filepath : List Nat) (stats : Statistics) :
    (process_file fs filepath stats).stats = add_error stats ∨
      (process_file fs filepath stats).stats = add_skipped stats ∨
      (process_file fs filepath stats).stats = add_renamed stats := by
  cases hread : read_file_content fs filepath with
  | none => left; simp [process_file, hread, add_error]
  | some content =>
    cases hext : extract_rj_pattern content RJ_PATTERN_LENGTH with
    | none => right; left; simp [process_file, hread, hext, add_skipped]
    | some rj_pattern =>
      have hp : process_file fs filepath stats =
          rename_file fs filepath (snprintf MAX_PATH_LENGTH (rj_pattern ++ ascii ".txt")) stats := by
        simp [process_file, hread, hext]
      rw [hp]
      rcases rename_file_stats_cases fs filepath
        (snprintf MAX_PATH_LENGTH (rj_pattern ++ ascii ".txt")) stats with h | h
      · left; exact h
      · right; right; exact h

theorem process_file_excess (fs : FileSystem) (filepath : List Nat) (stats : Statistics) :
    excess (process_file fs filepath stats).stats = excess stats + 1 := by
  rcases process_file_stats_cases fs filepath stats with h | h | h <;> rw [h] <;>
    simp only [excess, add_error, add_skipped, add_renamed] <;> omega

mutual
theorem process_directory_excess (dir_path : List Nat) :
    ∀ (listing : Listing) (stats : Statistics) (renames : List (List Nat × List Nat)),
      excess (process_directory dir_path listing stats renames).stats =
        excess stats + rejected_entries dir_path listing
  | .open_failed error, stats, renames => by
    simp only [process_directory, rejected_entries]
    split_ifs <;> simp
  | .opened first rest last_error, stats, renames => by
    simp only [process_directory, rejected_entries]
    by_cases h : dir_path.length ≥ MAX_PATH_LENGTH - 3
    · simp [h]
    · simp only [h, if_false]
      have h1 := process_entry_excess dir_path first stats renames
      have h2 := process_entries_excess dir_path rest
        (process_entry dir_path first stats renames).1
        (process_entry dir_path first stats renames).2
      split_ifs <;> simp only [h2, h1] <;> push_cast <;> omega
theorem process_entry_excess (dir_path : List Nat) :
    ∀ (entry : DirEntry) (stats : Statistics) (renames : List (List Nat × List Nat)),
      excess (process_entry dir_path entry stats renames).1 =
        excess stats + rejected_entry dir_path entry
  | .mk cFileName dwFileAttributes fs sub, stats, renames => by
    simp only [process_entry, rejected_entry]
    by_cases hdot : cFileName = ascii "." ∨ cFileName = ascii ".."
    · simp [hdot]
    · simp only [hdot, if_false]
      by_cases hlong : dir_path.length + cFileName.length + 2 ≥ MAX_PATH_LENGTH
      · simp only [hlong, if_true, excess]
        push_cast
        omega
      · simp only [hlong, if_false]
        by_cases hdir : dwFileAttributes &&& FILE_ATTRIBUTE_DIRECTORY ≠ 0
        · rw [if_pos hdir, if_pos hdir]
          exact process_directory_excess (build_full_path dir_path cFileName) sub stats renames
        · rw [if_neg hdir, if_neg hdir]
          by_cases htxt : is_txt_file cFileName = true
          · simp only [htxt, if_true]
            have hp := process_file_excess fs (build_full_path dir_path cFileName)
              { stats with total_files := stats.total_files + 1 }
            simp only [excess] at hp ⊢
            push_cast
            omega
          · simp [htxt]
theorem process_entries_excess (dir_path : List Nat) :
    ∀ (entries : List DirEntry) (stats : Statistics) (renames : List (List Nat × List Nat)),
      excess (process_entries dir_path entries stats renames).1 =
        excess stats + rejected_in_list dir_path entries
  | [], stats, renames => by
    simp [process_entries, rejected_in_list]
  | entry :: rest, stats, renames => by
    simp only [process_entries, rejected_in_list]
    have h1 := process_entry_excess dir_path entry stats renames
    have h2 := process_entries_excess dir_path rest
      (process_entry dir_path entry stats renames).1
      (process_entry dir_path entry stats renames).2
    rw [h2, h1]
    push_cast
    omega
end

set_option maxRecDepth 8192 in
/-- C7 (counterexample): a run over a directory whose single entry has a
name of 251 characters ends with `error_files = 1` and `total_files = 0`, so
`renamed_files + skipped_files + error_files <= total_files` fails. -/
theorem process_directory_long_name_counterexample :
    (¬ ∀ (dir_path : List Nat) (listing : Listing),
      (process_directory dir_path listing ⟨0, 0, 0, 0⟩ []).stats.renamed_files +
        (process_directory dir_path listing ⟨0, 0, 0, 0⟩ []).stats.skipped_files +
        (process_directory dir_path listing ⟨0, 0, 0, 0⟩ []).stats.error_files ≤
      (process_directory dir_path listing ⟨0, 0, 0, 0⟩ []).stats.total_files) ∧
    (process_directory (ascii "C:\\data") long_name_listing ⟨0, 0, 0, 0⟩ []).stats =
      ⟨0, 0, 0, 1⟩ := by
  have h : (process_directory (ascii "C:\\data") long_name_listing ⟨0, 0, 0, 0⟩ []).stats =
      ⟨0, 0, 0, 1⟩ := by decide
  refine ⟨?_, h⟩
  intro hall
  have := hall (ascii "C:\\data") long_name_listing
  rw [h] at this
  revert this
  decide

/-- C7 (amended): for any run of `process_directory` started with all four
counters at zero, `renamed_files + skipped_files + error_files` equals
`total_files` plus the number of entries rejected by the path-too-long check
(each of them adds one to `error_files` without being counted in
`total_files`); so the sum is at most `total_files` when no entry is
rejected. -/
theorem process_directory_statistics (dir_path : List Nat) (listing : Listing) :
    (process_directory dir_path listing ⟨0, 0, 0, 0⟩ []).stats.renamed_files +
        (process_directory dir_path listing ⟨0, 0, 0, 0⟩ []).stats.skipped_files +
        (process_directory dir_path listing ⟨0, 0, 0, 0⟩ []).stats.error_files =
      (process_directory dir_path listing ⟨0, 0, 0, 0⟩ []).stats.total_files +
        (rejected_entries dir_path listing : Int) ∧
    (rejected_entries dir_path listing = 0 →
      (process_directory dir_path listing ⟨0, 0, 0, 0⟩ []).stats.renamed_files +
        (process_directory dir_path listing ⟨0, 0, 0, 0⟩ []).stats.skipped_files +
        (process_directory dir_path listing ⟨0, 0, 0, 0⟩ []).stats.error_files ≤
      (process_directory dir_path listing ⟨0, 0, 0, 0⟩ []).stats.total_files) := by
  have h := process_directory_excess dir_path listing ⟨0, 0, 0, 0⟩ []
  simp only [excess] at h
  constructor
  · omega
  · intro h0
    rw [h0] at h
    simp at h
    omega

/-! ## Properties of the unique name -/

theorem strrchr_eq_none (c : Nat) (s : List Nat) (h : c ∉ s) : strrchr s c = none := by
  induction s with
  | nil => rfl
  | cons x xs ih =>
    have hx : ¬ x = c := fun e => h (by simp [e])
    have hxs : c ∉ xs := fun m => h (by simp [m])
    simp [strrchr, ih hxs, hx]

theorem strrchr_append (c : Nat) (front rest : List Nat) (h : c ∉ rest) :
    strrchr (front ++ c :: rest) c = some front.length := by
  induction front with
  | nil => simp [strrchr, strrchr_eq_none c rest h]
  | cons x xs ih => simp [strrchr, ih]

theorem decimal_length_le (j : Nat) (hj : j < 10000) : (decimal j).length ≤ 4 := by
  unfold decimal Nat.toDigits
  rw [List.length_map]
  exact Nat.toDigitsCore_length 10 (by decide) (j + 1) j 4 (by omega) (by decide)

theorem unique_candidate_length_le (stem ext : List Nat) (j : Nat) (hj : j < 10000) :
    (unique_candidate stem ext j).length ≤ stem.length + 5 + ext.length := by
  cases j with
  | zero => simp [unique_candidate]
  | succ j =>
    have := decimal_length_le (j + 1) hj
    have h1 : (ascii "_").length = 1 := by decide
    simp only [unique_candidate, List.length_append, h1]
    omega

theorem contains_false_iff (c : Nat) (l : List Nat) : l.contains c = false ↔ c ∉ l := by
  rw [← Bool.not_eq_true]
  simp

theorem is_stem_ext_iff (path stem ext : List Nat) :
    is_stem_ext path stem ext = true ↔
      (path = stem ++ ext ∧
        ((ext = [] ∧ '.'.toNat ∉ path) ∨
          ∃ rest, ext = '.'.toNat :: rest ∧ '.'.toNat ∉ rest)) := by
  cases ext with
  | nil =>
    simp only [is_stem_ext, Bool.and_eq_true, beq_iff_eq, Bool.not_eq_eq_eq_not, Bool.not_true,
      contains_false_iff]
    simp
  | cons c rest =>
    simp only [is_stem_ext, Bool.and_eq_true, beq_iff_eq, Bool.not_eq_eq_eq_not, Bool.not_true,
      contains_false_iff]
    constructor
    · rintro ⟨h1, h2, h3⟩
      exact ⟨h1, Or.inr ⟨rest, by rw [h2], h3⟩⟩
    · rintro ⟨h1, h | ⟨rest2, h2, h3⟩⟩
      · cases h.1
      · injection h2 with e1 e2
        subst e2
        exact ⟨h1, e1, h3⟩
theorem stem_ext_split (path stem ext : List Nat) (h : is_stem_ext path stem ext = true)
    (hlen : path.length < MAX_PATH_LENGTH) :
    (match strrchr path '.'.toNat with
      | some name_len =>
        (path.take (if name_len ≥ MAX_PATH_LENGTH then MAX_PATH_LENGTH - 1 else name_len),
          path.drop name_len)
      | none => (path.take (MAX_PATH_LENGTH - 1), [])) = (stem, ext) := by
  obtain ⟨hsplit, hext⟩ := (is_stem_ext_iff path stem ext).mp h
  rcases hext with ⟨he, hno⟩ | ⟨rest, he, hno⟩
  · subst he
    rw [List.append_nil] at hsplit
    subst hsplit
    rw [strrchr_eq_none _ _ hno]
    simp only [Prod.mk.injEq, and_true]
    exact List.take_of_length_le (by omega)
  · subst he
    subst hsplit
    rw [strrchr_append _ _ _ hno]
    have hs : ¬ stem.length ≥ MAX_PATH_LENGTH := by
      rw [List.length_append] at hlen
      omega
    simp only [hs, if_false]
    simp

theorem unique_name_loop_first_free (fs : FileSystem) (stem ext : List Nat)
    (output_size k : Nat) (hk : k < 10000)
    (hfit : ∀ j, j < 10000 → (unique_candidate stem ext j).length < output_size)
    (hfree : file_exists fs (unique_candidate stem ext k) = false) :
    ∀ (fuel suffix : Nat) (output : List Nat), 0 < suffix → suffix ≤ k → k < suffix + fuel →
      (∀ j, suffix ≤ j → j < k → file_exists fs (unique_candidate stem ext j) = true) →
      unique_name_loop fs stem ext output_size fuel suffix output = unique_candidate stem ext k := by
  intro fuel
  induction fuel with
  | zero => intro suffix output _ h1 h2; omega
  | succ fuel ih =>
    intro suffix output hpos hle hlt hmin
    have hs : suffix < 10000 := by omega
    have hcand : snprintf output_size (stem ++ ascii "_" ++ decimal suffix ++ ext) =
        unique_candidate stem ext suffix := by
      have h1 : unique_candidate stem ext suffix = stem ++ ascii "_" ++ decimal suffix ++ ext := by
        cases suffix with
        | zero => omega
        | succ n => rfl
      rw [← h1]
      unfold snprintf
      have := hfit suffix hs
      exact List.take_of_length_le (by omega)
    unfold unique_name_loop
    rw [if_pos hs]
    simp only [hcand]
    by_cases hk' : suffix = k
    · subst hk'
      simp [hfree]
    · have hex := hmin suffix (le_refl _) (by omega)
      simp only [hex, Bool.not_true, Bool.false_eq_true, if_false]
      exact ih (suffix + 1) _ (by omega) (by omega) (by omega)
        (fun j h1 h2 => hmin j (by omega) h2)

theorem generate_unique_name_first_free (fs : FileSystem)
    (base_name output stem ext : List Nat) (output_size k : Nat)
    (hsplit : is_stem_ext base_name stem ext = true)
    (hsize : output_size ≤ MAX_PATH_LENGTH)
    (hfit : ∀ j, j < 10000 → (unique_candidate stem ext j).length < output_size)
    (hk : k < 10000)
    (hfree : file_exists fs (unique_candidate stem ext k) = false)
    (hmin : ∀ j, j < k → file_exists fs (unique_candidate stem ext j) = true) :
    generate_unique_name fs base_name output output_size = unique_candidate stem ext k := by
  have hbase : base_name = unique_candidate stem ext 0 :=
    ((is_stem_ext_iff base_name stem ext).mp hsplit).1
  have hlen0 : base_name.length < output_size := by
    rw [hbase]; exact hfit 0 (by omega)
  have htake : base_name.take (output_size - 1) = base_name :=
    List.take_of_length_le (by omega)
  unfold generate_unique_name
  rw [if_neg (by omega)]
  simp only [htake]
  cases k with
  | zero =>
    rw [← hbase] at hfree
    simp [hfree, ← hbase]
  | succ k =>
    have h0 := hmin 0 (Nat.succ_pos k)
    rw [← hbase] at h0
    simp only [h0, Bool.not_true, Bool.false_eq_true, if_false]
    rw [stem_ext_split base_name stem ext hsplit (by omega)]
    exact unique_name_loop_first_free fs stem ext output_size (k + 1) hk hfit hfree 10000 1
      base_name (by omega) (by omega) (by omega) (fun j h1 h2 => hmin j h2)

theorem generate_unique_name_some_free (fs : FileSystem)
    (base_name output stem ext : List Nat) (output_size k : Nat)
    (hsplit : is_stem_ext base_name stem ext = true)
    (hsize : output_size ≤ MAX_PATH_LENGTH)
    (hfit : ∀ j, j < 10000 → (unique_candidate stem ext j).length < output_size)
    (hk : k < 10000)
    (hfree : file_exists fs (unique_candidate stem ext k) = false) :
    file_exists fs (generate_unique_name fs base_name output output_size) = false := by
  have hex : ∃ j, j < 10000 ∧ file_exists fs (unique_candidate stem ext j) = false :=
    ⟨k, hk, hfree⟩
  have hspec := Nat.find_spec hex
  have hfirst : ∀ j, j < Nat.find hex → file_exists fs (unique_candidate stem ext j) = true := by
    intro j hj
    have hnot := Nat.find_min hex hj
    have hj' : j < 10000 := lt_trans hj hspec.1
    cases hfe : file_exists fs (unique_candidate stem ext j) with
    | true => rfl
    | false => exact absurd ⟨hj', hfe⟩ hnot
  rw [generate_unique_name_first_free fs base_name output stem ext output_size (Nat.find hex)
    hsplit hsize hfit hspec.1 hspec.2 hfirst]
  exact hspec.2

/-- C3: when every candidate fits in the output buffer (a buffer of at most
`MAX_PATH_LENGTH` bytes, as the one `rename_file` passes) and the candidate
number `k` is the first one that does not exist, `generate_unique_name`
returns it, where the candidates are the desired path, `stem_1ext`, ...,
`stem_9999ext`, `ext` being the part of the desired path from its last `.`
on.  So a desired path that does not exist is returned unchanged, and with
`RJ-2024-00001.txt` and `RJ-2024-00001_1.txt` existing the desired path
`RJ-2024-00001.txt` resolves to `RJ-2024-00001_2.txt`. -/
theorem generate_unique_name_first_candidate (fs : FileSystem)
    (base_name output stem ext : List Nat) (output_size k : Nat)
    (hsplit : is_stem_ext base_name stem ext = true)
    (hsize : output_size ≤ MAX_PATH_LENGTH)
    (hfit : ∀ j, j < 10000 → (unique_candidate stem ext j).length < output_size)
    (hk : k < 10000)
    (hfree : file_exists fs (unique_candidate stem ext k) = false)
    (hmin : ∀ j, j < k → file_exists fs (unique_candidate stem ext j) = true) :
    generate_unique_name fs base_name output output_size = unique_candidate stem ext k ∧
    (k = 0 → generate_unique_name fs base_name output output_size = base_name) ∧
    generate_unique_name
      (fs_with_files [ascii "RJ-2024-00001.txt", ascii "RJ-2024-00001_1.txt"])
      (ascii "RJ-2024-00001.txt") [] MAX_PATH_LENGTH = ascii "RJ-2024-00001_2.txt" := by
  have h := generate_unique_name_first_free fs base_name output stem ext output_size k
    hsplit hsize hfit hk hfree hmin
  refine ⟨h, ?_, by decide⟩
  intro h0
  rw [h, h0, ((is_stem_ext_iff base_name stem ext).mp hsplit).1]
  rfl

/-- Witness of C3: the collision example of the specification, where the
candidate number 2 is the first free one. -/
theorem generate_unique_name_first_candidate_witness :
    is_stem_ext (ascii "RJ-2024-00001.txt") (ascii "RJ-2024-00001") (ascii ".txt") = true ∧
    generate_unique_name
      (fs_with_files [ascii "RJ-2024-00001.txt", ascii "RJ-2024-00001_1.txt"])
      (ascii "RJ-2024-00001.txt") [] MAX_PATH_LENGTH =
      unique_candidate (ascii "RJ-2024-00001") (ascii ".txt") 2 :=
  ⟨by decide,
    (generate_unique_name_first_candidate
      (fs_with_files [ascii "RJ-2024-00001.txt", ascii "RJ-2024-00001_1.txt"])
      (ascii "RJ-2024-00001.txt") [] (ascii "RJ-2024-00001") (ascii ".txt") MAX_PATH_LENGTH 2
      (by decide)
      (le_refl _)
      (fun j hj => lt_of_le_of_lt (unique_candidate_length_le _ _ j hj) (by decide))
      (by decide) (by decide) (by decide)).1⟩

/-- C4 (counterexample): when the desired path names an existing directory,
`file_exists` reports it as absent and `generate_unique_name` returns the
desired path itself, which names an existing entry, although the candidate
`..._1.txt` names none. -/
theorem generate_unique_name_directory_counterexample :
    (¬ ∀ (fs : FileSystem) (base_name output stem ext : List Nat) (output_size k : Nat),
      is_stem_ext base_name stem ext = true → output_size ≤ MAX_PATH_LENGTH →
      (∀ j, j < 10000 → (unique_candidate stem ext j).length < output_size) → k < 10000 →
      fs.GetFileAttributesA (unique_candidate stem ext k) = INVALID_FILE_ATTRIBUTES →
      fs.GetFileAttributesA (generate_unique_name fs base_name output output_size) =
        INVALID_FILE_ATTRIBUTES) ∧
    generate_unique_name (fs_with_directory (ascii "C:\\data\\RJ-2024-00001.txt"))
      (ascii "C:\\data\\RJ-2024-00001.txt") [] MAX_PATH_LENGTH =
      ascii "C:\\data\\RJ-2024-00001.txt" ∧
    (fs_with_directory (ascii "C:\\data\\RJ-2024-00001.txt")).GetFileAttributesA
      (ascii "C:\\data\\RJ-2024-00001.txt") = FILE_ATTRIBUTE_DIRECTORY ∧
    (fs_with_directory (ascii "C:\\data\\RJ-2024-00001.txt")).GetFileAttributesA
      (ascii "C:\\data\\RJ-2024-00001_1.txt") = INVALID_FILE_ATTRIBUTES := by
  refine ⟨?_, by decide, by decide, by decide⟩
  intro hall
  have h := hall (fs_with_directory (ascii "C:\\data\\RJ-2024-00001.txt"))
    (ascii "C:\\data\\RJ-2024-00001.txt") [] (ascii "C:\\data\\RJ-2024-00001") (ascii ".txt")
    MAX_PATH_LENGTH 1
    (by decide)
    (le_refl _)
    (fun j hj => lt_of_le_of_lt (unique_candidate_length_le _ _ j hj) (by decide))
    (by decide) (by decide)
  revert h
  decide

/-- C4 (amended): when every candidate fits in the output buffer and at least
one candidate is not an existing regular file, the path returned by
`generate_unique_name` is not an existing regular file (`file_exists` is 0 for
it): it names no entry or it names a directory.  Hence the path that
`rename_file` hands to `rename` was not an existing regular file when it was
resolved. -/
theorem generate_unique_name_not_a_file (fs : FileSystem)
    (base_name output stem ext : List Nat) (output_size k : Nat)
    (hsplit : is_stem_ext base_name stem ext = true)
    (hsize : output_size ≤ MAX_PATH_LENGTH)
    (hfit : ∀ j, j < 10000 → (unique_candidate stem ext j).length < output_size)
    (hk : k < 10000)
    (hfree : file_exists fs (unique_candidate stem ext k) = false) :
    file_exists fs (generate_unique_name fs base_name output output_size) = false ∧
    (fs.GetFileAttributesA (generate_unique_name fs base_name output output_size) =
        INVALID_FILE_ATTRIBUTES ∨
      fs.GetFileAttributesA (generate_unique_name fs base_name output output_size) &&&
        FILE_ATTRIBUTE_DIRECTORY ≠ 0) ∧
    (output_size = MAX_PATH_LENGTH →
      ∀ (old_path new_name : List Nat) (stats : Statistics) (final_path : List Nat),
        rename_new_path old_path new_name = some base_name →
        (rename_file fs old_path new_name stats).final_path = some final_path →
        file_exists fs final_path = false) := by
  have h := generate_unique_name_some_free fs base_name output stem ext output_size k
    hsplit hsize hfit hk hfree
  refine ⟨h, ?_, ?_⟩
  · unfold file_exists at h
    by_cases h1 : fs.GetFileAttributesA (generate_unique_name fs base_name output output_size) =
        INVALID_FILE_ATTRIBUTES
    · exact Or.inl h1
    · right
      intro h2
      simp [h1, h2] at h
  · intro hsz old_path new_name stats final_path hnew hfinal
    have h' := generate_unique_name_some_free fs base_name [] stem ext MAX_PATH_LENGTH k
      hsplit (le_refl _) (hsz ▸ hfit) hk hfree
    unfold rename_file at hfinal
    rw [hnew] at hfinal
    by_cases hr : fs.rename old_path (generate_unique_name fs base_name [] MAX_PATH_LENGTH) = true
    · simp [hr] at hfinal
      rw [← hfinal]
      exact h'
    · simp [hr] at hfinal
      rw [← hfinal]
      exact h'

/-- Witness of C4 (amended): the collision example of the specification. -/
theorem generate_unique_name_not_a_file_witness :
    file_exists (fs_with_files [ascii "RJ-2024-00001.txt", ascii "RJ-2024-00001_1.txt"])
      (generate_unique_name
        (fs_with_files [ascii "RJ-2024-00001.txt", ascii "RJ-2024-00001_1.txt"])
        (ascii "RJ-2024-00001.txt") [] MAX_PATH_LENGTH) = false :=
  (generate_unique_name_not_a_file
    (fs_with_files [ascii "RJ-2024-00001.txt", ascii "RJ-2024-00001_1.txt"])
    (ascii "RJ-2024-00001.txt") [] (ascii "RJ-2024-00001") (ascii ".txt") MAX_PATH_LENGTH 7
    (by decide)
    (le_refl _)
    (fun j hj => lt_of_le_of_lt (unique_candidate_length_le _ _ j hj) (by decide))
    (by decide) (by decide)).1



/-! ## Properties of files that already carry their identifier -/

theorem is_identifier_chars (w : List Nat) (h : is_identifier w = true) :
    ∀ c ∈ w, c = 'R'.toNat ∨ c = 'J'.toNat ∨ c = '-'.toNat ∨ ('0'.toNat ≤ c ∧ c ≤ '9'.toNat) := by
  match w, h with
  | [a0, a1, a2, a3, a4, a5, a6, a7, a8, a9, a10, a11, a12], h =>
    simp only [is_identifier, is_digit, Bool.and_eq_true, beq_iff_eq, decide_eq_true_eq] at h
    intro c hc
    simp only [List.mem_cons, List.mem_singleton, List.not_mem_nil, or_false] at hc
    rcases hc with rfl | rfl | rfl | rfl | rfl | rfl | rfl | rfl | rfl | rfl | rfl | rfl | rfl <;>
      simp only [Char.reduceToNat] at h ⊢ <;> omega

theorem leaf_without_separator (w tail : List Nat) (c : Nat) (h : is_identifier w = true)
    (hc : c = BACKSLASH ∨ c = SLASH) (htail : c ∉ tail) : c ∉ w ++ tail := by
  intro hm
  rcases List.mem_append.mp hm with hw | ht
  · have := is_identifier_chars w h c hw
    simp only [BACKSLASH, SLASH, Char.reduceToNat] at hc this
    omega
  · exact htail ht

theorem size_sub_eq (a b : Nat) (hb : b ≤ a) (ha : a < SIZE_MODULUS) : size_sub a b = a - b := by
  unfold size_sub
  have hb' : b % SIZE_MODULUS = b := Nat.mod_eq_of_lt (by omega)
  rw [hb']
  have : a + SIZE_MODULUS - b = (a - b) + SIZE_MODULUS := by omega
  rw [this, Nat.add_mod_right]
  exact Nat.mod_eq_of_lt (by omega)

theorem is_directory_part_cases (dir : List Nat) (h : is_directory_part dir = true) :
    dir = [] ∨ (∃ d, dir = d ++ [BACKSLASH]) ∨ (∃ d, dir = d ++ [SLASH] ∧ BACKSLASH ∉ d) := by
  unfold is_directory_part at h
  have hrev : dir = dir.reverse.reverse := (List.reverse_reverse dir).symm
  cases hr : dir.reverse with
  | nil =>
    left
    rw [hrev, hr]
    rfl
  | cons c rest =>
    rw [hr] at h hrev
    simp only [List.reverse_cons] at hrev
    simp only [Bool.or_eq_true, Bool.and_eq_true, beq_iff_eq] at h
    rcases h with h | ⟨h1, h2⟩
    · right; left
      exact ⟨rest.reverse, by rw [hrev, h]⟩
    · right; right
      refine ⟨rest.reverse, by rw [hrev, h1], ?_⟩
      intro hm
      have : rest.contains BACKSLASH = true := by
        simp only [List.contains_iff_exists_mem_beq, beq_iff_eq]
        exact ⟨BACKSLASH, List.mem_reverse.mp hm, rfl⟩
      rw [this] at h2
      cases h2

theorem rename_new_path_directory_part (dir leaf new_name : List Nat)
    (hdir : is_directory_part dir = true)
    (hback : BACKSLASH ∉ leaf) (hslash : SLASH ∉ leaf)
    (hlen : dir.length + new_name.length + 1 < MAX_PATH_LENGTH) :
    rename_new_path (dir ++ leaf) new_name = some (dir ++ new_name) := by
  have hmod : MAX_PATH_LENGTH < SIZE_MODULUS := by decide
  have hmax : MAX_PATH_LENGTH = 260 := rfl
  have hsub1 : size_sub (size_sub MAX_PATH_LENGTH new_name.length) 1 =
      MAX_PATH_LENGTH - new_name.length - 1 := by
    rw [size_sub_eq _ _ (by omega) hmod, size_sub_eq _ _ (by omega) (by omega)]
  have hsub2 : size_sub (size_sub MAX_PATH_LENGTH dir.length) 1 =
      MAX_PATH_LENGTH - dir.length - 1 := by
    rw [size_sub_eq _ _ (by omega) hmod, size_sub_eq _ _ (by omega) (by omega)]
  have hfound : ∀ (d : List Nat) (i : Nat), dir = d ++ [i] →
      (match (some d.length : Option Nat) with
        | some i =>
          if i + 1 ≥ size_sub (size_sub MAX_PATH_LENGTH new_name.length) 1 then none
          else
            some ((dir ++ leaf).take (i + 1) ++
              new_name.take (size_sub (size_sub MAX_PATH_LENGTH (i + 1)) 1))
        | none => some (new_name.take (MAX_PATH_LENGTH - 1))) = some (dir ++ new_name) := by
    intro d i hd
    have hdl : d.length + 1 = dir.length := by rw [hd]; simp
    simp only [hdl, hsub1, hsub2]
    rw [if_neg (by omega), List.take_left' rfl, List.take_of_length_le (by omega)]
  unfold rename_new_path
  rcases is_directory_part_cases dir hdir with h | ⟨d, h⟩ | ⟨d, h, hno⟩
  · subst h
    rw [List.nil_append, strrchr_eq_none _ _ hback]
    simp only [strrchr_eq_none _ _ hslash]
    rw [List.take_of_length_le (by simp at hlen; omega)]
    rfl
  · have hpath : dir ++ leaf = d ++ BACKSLASH :: leaf := by rw [h]; simp
    have hs : strrchr (dir ++ leaf) BACKSLASH = some d.length := by
      rw [hpath]; exact strrchr_append _ _ _ hback
    simp only [hs]
    exact hfound d BACKSLASH h
  · have hpath : dir ++ leaf = d ++ SLASH :: leaf := by rw [h]; simp
    have hnb : BACKSLASH ∉ dir ++ leaf := by
      rw [hpath]
      intro hm
      rcases List.mem_append.mp hm with h1 | h1
      · exact hno h1
      · rcases List.mem_cons.mp h1 with h2 | h2
        · revert h2; decide
        · exact hback h2
    have hs : strrchr (dir ++ leaf) SLASH = some d.length := by
      rw [hpath]; exact strrchr_append _ _ _ hslash
    simp only [strrchr_eq_none _ _ hnb, hs]
    exact hfound d SLASH h

theorem generate_unique_name_free (fs : FileSystem) (base_name : List Nat)
    (hlen : base_name.length < MAX_PATH_LENGTH)
    (hfree : file_exists fs base_name = false) :
    generate_unique_name fs base_name [] MAX_PATH_LENGTH = base_name := by
  have htake : base_name.take (MAX_PATH_LENGTH - 1) = base_name :=
    List.take_of_length_le (by omega)
  unfold generate_unique_name
  rw [if_neg (by decide)]
  simp only [htake, hfree, Bool.not_false, if_true]

theorem generate_unique_name_taken_once (fs : FileSystem) (stem : List Nat)
    (hlen : stem.length + 6 < MAX_PATH_LENGTH)
    (hself : file_exists fs (stem ++ ascii ".txt") = true)
    (hfree : file_exists fs (stem ++ ascii "_1.txt") = false) :
    generate_unique_name fs (stem ++ ascii ".txt") [] MAX_PATH_LENGTH =
      stem ++ ascii "_1.txt" := by
  have h4 : (ascii ".txt").length = 4 := by decide
  have h6 : (ascii "_1.txt").length = 6 := by decide
  have hbase : (stem ++ ascii ".txt").length < MAX_PATH_LENGTH := by
    rw [List.length_append, h4]; omega
  have htake : (stem ++ ascii ".txt").take (MAX_PATH_LENGTH - 1) = stem ++ ascii ".txt" :=
    List.take_of_length_le (by omega)
  have hsplit : is_stem_ext (stem ++ ascii ".txt") stem (ascii ".txt") = true :=
    (is_stem_ext_iff _ _ _).mpr ⟨rfl, Or.inr ⟨ascii "txt", by decide, by decide⟩⟩
  have hcand : stem ++ ascii "_" ++ decimal 1 ++ ascii ".txt" = stem ++ ascii "_1.txt" := by
    have h1 : ascii "_" ++ decimal 1 ++ ascii ".txt" = ascii "_1.txt" := by decide
    rw [← h1]
    simp only [List.append_assoc]
  have hsnp : snprintf MAX_PATH_LENGTH (stem ++ ascii "_" ++ decimal 1 ++ ascii ".txt") =
      stem ++ ascii "_1.txt" := by
    rw [hcand]
    unfold snprintf
    exact List.take_of_length_le (by rw [List.length_append, h6]; omega)
  have hloop : ∀ output, unique_name_loop fs stem (ascii ".txt") MAX_PATH_LENGTH (9999 + 1) 1
      output = stem ++ ascii "_1.txt" := by
    intro output
    rw [unique_name_loop, if_pos (by decide)]
    simp only [hsnp, hfree, Bool.not_false, if_true]
  unfold generate_unique_name
  rw [if_neg (by decide)]
  simp only [htake, hself, Bool.not_true, Bool.false_eq_true, if_false]
  have hs := stem_ext_split _ stem (ascii ".txt") hsplit hbase
  rw [htake] at hs
  rw [hs]
  exact hloop _

/-- C11 (amended): when `process_file` handles a file whose own path is
`<dir><identifier>.txt`, where `<dir>` is a directory part that `rename_file`
finds (empty, or ending in a backslash, or ending in `/` without any
backslash) of at most 240 characters, `identifier` is the first identifier of
its content (of the part before the first zero byte), the file is a regular
file, `<dir><identifier>_1.txt` does not exist and the rename succeeds, the
file is renamed to `<dir><identifier>_1.txt` and counted in `renamed_files`.
In any later state in which `<dir><identifier>.txt` does not exist, the next
call renames `<dir><identifier>_1.txt` back to `<dir><identifier>.txt`. -/
theorem process_file_renames_named_file (fs : FileSystem)
    (dir content identifier : List Nat) (i : Nat) (stats : Statistics)
    (hdir : is_directory_part dir = true)
    (hlen : dir.length ≤ 240)
    (hread : read_file_content fs (dir ++ identifier ++ ascii ".txt") = some content)
    (hid : identifier = window (c_str content) i)
    (hgram : is_identifier (window (c_str content) i) = true)
    (hfirst : ∀ j, j < i → is_identifier (window (c_str content) j) = false)
    (hself : file_exists fs (dir ++ identifier ++ ascii ".txt") = true)
    (hfree : file_exists fs (dir ++ identifier ++ ascii "_1.txt") = false)
    (hrename : fs.rename (dir ++ identifier ++ ascii ".txt")
      (dir ++ identifier ++ ascii "_1.txt") = true) :
    process_file fs (dir ++ identifier ++ ascii ".txt") stats =
      ⟨0, add_renamed stats, some (dir ++ identifier ++ ascii "_1.txt")⟩ ∧
    (∀ (next : FileSystem) (later : Statistics),
      read_file_content next (dir ++ identifier ++ ascii "_1.txt") = some content →
      file_exists next (dir ++ identifier ++ ascii ".txt") = false →
      next.rename (dir ++ identifier ++ ascii "_1.txt")
        (dir ++ identifier ++ ascii ".txt") = true →
      process_file next (dir ++ identifier ++ ascii "_1.txt") later =
        ⟨0, add_renamed later, some (dir ++ identifier ++ ascii ".txt")⟩) := by
  have hident : is_identifier identifier = true := by rw [hid]; exact hgram
  have hl13 : identifier.length = 13 := is_identifier_length _ hident
  have h4 : (ascii ".txt").length = 4 := by decide
  have hextract : extract_rj_pattern content RJ_PATTERN_LENGTH = some identifier := by
    rw [extract_eq_first_window _ _ (le_refl _), hid]
    exact first_window_eq_some _ i hgram hfirst
  have hname : snprintf MAX_PATH_LENGTH (identifier ++ ascii ".txt") =
      identifier ++ ascii ".txt" := by
    unfold snprintf
    exact List.take_of_length_le (by rw [List.length_append, hl13, h4]; decide)
  have hnamelen : (identifier ++ ascii ".txt").length = 17 := by
    rw [List.length_append, hl13, h4]
  have hnew : ∀ tail : List Nat, BACKSLASH ∉ tail → SLASH ∉ tail →
      rename_new_path (dir ++ identifier ++ tail) (identifier ++ ascii ".txt") =
        some (dir ++ identifier ++ ascii ".txt") := by
    intro tail hb hs
    rw [List.append_assoc dir identifier tail, List.append_assoc dir identifier (ascii ".txt")]
    exact rename_new_path_directory_part dir (identifier ++ tail) _ hdir
      (leaf_without_separator _ _ _ hident (Or.inl rfl) hb)
      (leaf_without_separator _ _ _ hident (Or.inr rfl) hs)
      (by rw [hnamelen]; simp only [MAX_PATH_LENGTH]; omega)
  have hstem : (dir ++ identifier).length + 6 < MAX_PATH_LENGTH := by
    rw [List.length_append, hl13]; simp only [MAX_PATH_LENGTH]; omega
  constructor
  · have hgen := generate_unique_name_taken_once fs (dir ++ identifier) hstem hself hfree
    simp only [process_file, hread, hextract, hname, rename_file,
      hnew (ascii ".txt") (by decide) (by decide), hgen, hrename, if_true, add_renamed]
  · intro next later hread2 hfree2 hrename2
    have hgen := generate_unique_name_free next (dir ++ identifier ++ ascii ".txt")
      (by rw [List.length_append, h4]; omega) hfree2
    simp only [process_file, hread2, hextract, hname, rename_file,
      hnew (ascii "_1.txt") (by decide) (by decide), hgen, hrename2, if_true, add_renamed]

/-- Witness of C11 (amended): the file `C:\data\RJ-2022-54321.txt` with the
content `Ref RJ-2022-54321 attached.` is renamed to
`C:\data\RJ-2022-54321_1.txt`, and from there back again once the first name
is free. -/
theorem process_file_renames_named_file_witness :
    is_directory_part (ascii "C:\\data\\") = true ∧
    process_file
      (fs_with_text_file (ascii "C:\\data\\" ++ ascii "RJ-2022-54321" ++ ascii ".txt")
        (ascii "Ref RJ-2022-54321 attached."))
      (ascii "C:\\data\\" ++ ascii "RJ-2022-54321" ++ ascii ".txt") ⟨1, 0, 0, 0⟩ =
      ⟨0, add_renamed ⟨1, 0, 0, 0⟩,
        some (ascii "C:\\data\\" ++ ascii "RJ-2022-54321" ++ ascii "_1.txt")⟩ ∧
    process_file
      (fs_with_text_file (ascii "C:\\data\\" ++ ascii "RJ-2022-54321" ++ ascii "_1.txt")
        (ascii "Ref RJ-2022-54321 attached."))
      (ascii "C:\\data\\" ++ ascii "RJ-2022-54321" ++ ascii "_1.txt") ⟨1, 0, 0, 0⟩ =
      ⟨0, add_renamed ⟨1, 0, 0, 0⟩,
        some (ascii "C:\\data\\" ++ ascii "RJ-2022-54321" ++ ascii ".txt")⟩ :=
  have h := process_file_renames_named_file
    (fs_with_text_file (ascii "C:\\data\\" ++ ascii "RJ-2022-54321" ++ ascii ".txt")
      (ascii "Ref RJ-2022-54321 attached."))
    (ascii "C:\\data\\") (ascii "Ref RJ-2022-54321 attached.") (ascii "RJ-2022-54321") 4
    ⟨1, 0, 0, 0⟩ (by decide) (by decide) (by decide) (by decide) (by decide) (by decide)
    (by decide) (by decide) (by decide)
  ⟨by decide, h.1,
    h.2
      (fs_with_text_file (ascii "C:\\data\\" ++ ascii "RJ-2022-54321" ++ ascii "_1.txt")
        (ascii "Ref RJ-2022-54321 attached."))
      ⟨1, 0, 0, 0⟩ (by decide) (by decide) (by decide)⟩

set_option maxRecDepth 16384 in
/-- C11 (counterexample): with a directory part of 241 characters the file
`<dir>RJ-2022-54321.txt` passes the path-too-long check of `rename_file`, but
the name `<dir>RJ-2022-54321_1.txt` has 260 characters and is cut to the 259
that fit the buffer: the file is renamed to `<dir>RJ-2022-54321_1.tx`.  With a
directory part of 242 characters the path-too-long check rejects the rename
and the file is counted in `error_files`. -/
theorem process_file_long_directory_counterexample :
    (¬ ∀ (fs : FileSystem) (dir content identifier : List Nat) (i : Nat) (stats : Statistics),
      is_directory_part dir = true →
      read_file_content fs (dir ++ identifier ++ ascii ".txt") = some content →
      identifier = window (c_str content) i →
      is_identifier (window (c_str content) i) = true →
      (∀ j, j < i → is_identifier (window (c_str content) j) = false) →
      file_exists fs (dir ++ identifier ++ ascii ".txt") = true →
      file_exists fs (dir ++ identifier ++ ascii "_1.txt") = false →
      fs.rename (dir ++ identifier ++ ascii ".txt")
        (dir ++ identifier ++ ascii "_1.txt") = true →
      process_file fs (dir ++ identifier ++ ascii ".txt") stats =
        ⟨0, add_renamed stats, some (dir ++ identifier ++ ascii "_1.txt")⟩) ∧
    (long_directory 237).length = 241 ∧
    process_file
      (fs_with_text_file (long_directory 237 ++ ascii "RJ-2022-54321" ++ ascii ".txt")
        (ascii "Ref RJ-2022-54321 attached."))
      (long_directory 237 ++ ascii "RJ-2022-54321" ++ ascii ".txt") ⟨1, 0, 0, 0⟩ =
      ⟨0, ⟨1, 1, 0, 0⟩, some (long_directory 237 ++ ascii "RJ-2022-54321" ++ ascii "_1.tx")⟩ ∧
    process_file
      (fs_with_text_file (long_directory 238 ++ ascii "RJ-2022-54321" ++ ascii ".txt")
        (ascii "Ref RJ-2022-54321 attached."))
      (long_directory 238 ++ ascii "RJ-2022-54321" ++ ascii ".txt") ⟨1, 0, 0, 0⟩ =
      ⟨-1, ⟨1, 0, 0, 1⟩, none⟩ := by
  have hcut : process_file
      (fs_with_text_file (long_directory 237 ++ ascii "RJ-2022-54321" ++ ascii ".txt")
        (ascii "Ref RJ-2022-54321 attached."))
      (long_directory 237 ++ ascii "RJ-2022-54321" ++ ascii ".txt") ⟨1, 0, 0, 0⟩ =
      ⟨0, ⟨1, 1, 0, 0⟩, some (long_directory 237 ++ ascii "RJ-2022-54321" ++ ascii "_1.tx")⟩ := by
    decide
  refine ⟨?_, by decide, hcut, by decide⟩
  intro hall
  have h := hall
    (fs_with_text_file (long_directory 237 ++ ascii "RJ-2022-54321" ++ ascii ".txt")
      (ascii "Ref RJ-2022-54321 attached."))
    (long_directory 237) (ascii "Ref RJ-2022-54321 attached.") (ascii "RJ-2022-54321") 4
    ⟨1, 0, 0, 0⟩ (by decide) (by decide) (by decide) (by decide) (by decide) (by decide)
    (by decide) (by decide)
  rw [hcut] at h
  revert h
  decide

end RenameFiles
